import Mathlib

/-!
Shallow embedding of the httpie command-line HTTP client (src/main.rs) and
verification of its specification claims.

Strings are modelled as `List Char`; Rust's `Result` as `Except`; a call of
`Option.unwrap` or `Result.unwrap` on a failed value (a panic) as an explicit
`Panic` error value.  External collaborator crates (url, mime, syntect, the
http header types) are modelled from the specification where their doc
comments say so, since their code is not part of this repository.  Printing
functions are modelled as functions returning the characters they write.
-/

deriving instance DecidableEq for Except

namespace Httpie

/-- Rust's `str::split(sep)` on a single separator character: the list of
segments between occurrences of `sep`.  Like the Rust iterator collected to a
list, it always yields at least one (possibly empty) segment. -/
def splitCh (sep : Char) : List Char → List (List Char)
  | [] => [[]]
  | c :: rest =>
    if c = sep then [] :: splitCh sep rest
    else
      match splitCh sep rest with
      | [] => [[c]]
      | seg :: segs => (c :: seg) :: segs

/-- `struct KvPair { k: String, v: String }` from src/main.rs. -/
structure KvPair where
  k : List Char
  v : List Char
deriving DecidableEq, Repr

/-- The error message built by `anyhow!(format!("Failed to parse {}", s))`. -/
def kvPairErr (s : List Char) : List Char :=
  String.toList "Failed to parse " ++ s

/-- `impl FromStr for KvPair` (src/main.rs:59-70): `s.split('=')`, then two
calls of `next()`; the first yields the first segment (always present), the
second fails exactly when there is no second segment. -/
def KvPair.fromStr (s : List Char) : Except (List Char) KvPair :=
  match splitCh '=' s with
  | k :: v :: _ => .ok ⟨k, v⟩
  | _ => .error (kvPairErr s)

/-- `fn parse_kv_pair` (src/main.rs:55-57): `Ok(s.parse()?)`. -/
def parse_kv_pair (s : List Char) : Except (List Char) KvPair :=
  KvPair.fromStr s

/-- A media type as compared by the external mime crate: lowercased type and
subtype, plus the raw parameter section (empty when no `;` is present).
Equality is structural, so a media type carrying parameters is not equal to a
bare constant such as `application/json`. -/
structure Mime where
  type : List Char
  subtype : List Char
  params : List Char
deriving DecidableEq, Repr

/-- `mime::APPLICATION_JSON`. -/
def APPLICATION_JSON : Mime :=
  ⟨String.toList "application", String.toList "json", []⟩

/-- `mime::TEXT_HTML`. -/
def TEXT_HTML : Mime :=
  ⟨String.toList "text", String.toList "html", []⟩

def isMimeTokenChar (c : Char) : Bool :=
  c.isAlphanum || c == '-' || c == '+' || c == '.' || c == '*'

/-- Modelled from the spec: the external mime crate's parser (§3 MediaType,
§4.5) — a Content-Type value parses iff it has the shape
`type "/" subtype [";" parameters]` with non-empty token segments; type and
subtype are compared case-insensitively (lowercased here). -/
def mime_parse (s : List Char) : Option Mime :=
  let mainPart := s.takeWhile (· ≠ ';')
  let params := s.dropWhile (· ≠ ';')
  let t := mainPart.takeWhile (· ≠ '/')
  match mainPart.dropWhile (· ≠ '/') with
  | '/' :: sub =>
    if t ≠ [] ∧ sub ≠ [] ∧ t.all isMimeTokenChar ∧ sub.all isMimeTokenChar then
      some ⟨t.map Char.toLower, sub.map Char.toLower, params⟩
    else none
  | _ => none

/-- Response headers in received order; reqwest stores names lowercased. -/
abbrev Headers := List (List Char × List Char)

/-- `header::CONTENT_TYPE`. -/
def CONTENT_TYPE : List Char := String.toList "content-type"

/-- `HeaderMap::get`: the first value whose name matches. -/
def header_get (hs : Headers) (name : List Char) : Option (List Char) :=
  match hs with
  | [] => none
  | (n, v) :: rest => if n = name then some v else header_get rest name

/-- Modelled from the spec's collaborator contract: `HeaderValue::to_str`
succeeds iff every byte is visible ASCII or space. -/
def header_value_to_str (v : List Char) : Option (List Char) :=
  if v.all (fun c => decide (0x20 ≤ c.toNat ∧ c.toNat ≤ 0x7E)) then some v
  else none

/-- A Rust panic (`Option::unwrap` / `Result::unwrap` on a failed value). -/
inductive Panic
  | unwrapFailed
deriving DecidableEq, Repr

/-- `fn get_content_type` (src/main.rs:120-124):
`resp.headers().get(CONTENT_TYPE).map(|v| v.to_str().unwrap().parse().unwrap())`.
Both `unwrap`s panic when the header value is not convertible to a string or
not parseable as a media type. -/
def get_content_type (hs : Headers) : Except Panic (Option Mime) :=
  match header_get hs CONTENT_TYPE with
  | none => .ok none
  | some raw =>
    match header_value_to_str raw with
    | none => .error .unwrapFailed
    | some str =>
      match mime_parse str with
      | none => .error .unwrapFailed
      | some m => .ok (some m)

/-- `syntect::util::LinesWithEndings`: the lines of a string, each keeping its
trailing newline; a final fragment without a newline is kept as well, and an
empty string yields no lines. -/
def lines_with_endings : List Char → List (List Char)
  | [] => []
  | c :: rest =>
    if c = '\n' then ['\n'] :: lines_with_endings rest
    else
      match lines_with_endings rest with
      | [] => [[c]]
      | l :: ls => (c :: l) :: ls

/-- Modelled from the spec: the grammar names of syntect's default syntax set
that this program relies on — it contains grammars for the `json` and `html`
file extensions (§1, §4.6). -/
def default_grammar_extensions : List (List Char) :=
  [String.toList "json", String.toList "html"]

/-- `SyntaxSet::find_syntax_by_extension`, over the modelled default set. -/
def find_grammar_by_extension (ext : List Char) : Option (List Char) :=
  if ext ∈ default_grammar_extensions then some ext else none

/-- A terminal color escape sequence introducing a highlighted span. -/
def ansiEscape : List Char := '\x1b' :: String.toList "[38;2m"

/-- Modelled from the spec: the highlighting engine is purely presentational —
each line is emitted with terminal color escapes, its text content preserved
(§4.6: "purely a presentational transform"). -/
def highlight_line (grammar line : List Char) : List Char :=
  ansiEscape ++ grammar ++ ansiEscape ++ line

/-- `fn print_synctect` (src/main.rs:108-118): looks up the grammar for `ext`
in the default syntax set (`unwrap` panics when absent) and emits each line,
with its ending, highlighted. -/
def print_synctect (s : List Char) (ext : List Char) : Except Panic (List Char) :=
  match find_grammar_by_extension ext with
  | none => .error .unwrapFailed
  | some grammar =>
    .ok ((lines_with_endings s).map (highlight_line grammar)).flatten

/-- `fn print_body` (src/main.rs:100-106): dispatch on the resolved media
type — `application/json` and `text/html` go to the highlighted path, any
other or absent media type is printed verbatim by `println!`. -/
def print_body (m : Option Mime) (body : List Char) : Except Panic (List Char) :=
  match m with
  | some v =>
    if v = APPLICATION_JSON then print_synctect body (String.toList "json")
    else if v = TEXT_HTML then print_synctect body (String.toList "html")
    else .ok (body ++ ['\n'])
  | none => .ok (body ++ ['\n'])

/-- A transport-level failure of the external HTTP client. -/
inductive TransportError
  | failure
deriving DecidableEq, Repr

/-- The response as observed by the rendering pipeline: `resp.version()`
debug-formats to the protocol version, `resp.status()` display-formats to
`"<code> <text>"`, headers are an ordered list, and `resp.text()` may fail at
transport level. -/
structure Response where
  version : List Char
  status_code : List Char
  status_text : List Char
  headers : Headers
  text : Except TransportError (List Char)
deriving DecidableEq, Repr

/-- The Display form of `resp.status()`: status code, space, status text. -/
def status_display (r : Response) : List Char :=
  r.status_code ++ ' ' :: r.status_text

/-- `fn print_status` (src/main.rs:87-90):
`println!("{}\n", format!("{:?} {}", resp.version(), resp.status()))` — the
status line followed by a blank line (color omitted: presentational). -/
def print_status (r : Response) : List Char :=
  (r.version ++ ' ' :: status_display r) ++ String.toList "\n\n"

/-- The Rust `{:?}` debug form of a header value: the text in quotes. -/
def debug_quote (v : List Char) : List Char :=
  '"' :: v ++ ['"']

/-- `fn print_headers` (src/main.rs:92-98): for each header,
`println!("{}: {:?}\n", name, value)` — name, colon, debug-quoted value, a
newline from the format string and one from `println!`, so every header line
is followed by a blank line; then `print!("\n")` after the loop. -/
def print_headers (r : Response) : List Char :=
  (r.headers.map fun nv =>
      nv.1 ++ String.toList ": " ++ debug_quote nv.2 ++ String.toList "\n\n").flatten
    ++ ['\n']

/-- An error aborting a run: a CLI validation error, a transport failure
propagated by `?`, or a panic. -/
inductive RunError
  | cli (msg : List Char)
  | transport (e : TransportError)
  | panic (p : Panic)
deriving DecidableEq, Repr

/-- `async fn print_resp` (src/main.rs:126-134): print status, print headers,
resolve the content type, read the body text (`?` propagates a transport
failure), print the body.  Modelled as the full output of a successful
rendering; a panic or a failed `text()` is an error value. -/
def print_resp (r : Response) : Except RunError (List Char) :=
  let s := print_status r
  let h := print_headers r
  match get_content_type r.headers with
  | .error p => .error (.panic p)
  | .ok m =>
    match r.text with
    | .error e => .error (.transport e)
    | .ok body =>
      match print_body m body with
      | .error p => .error (.panic p)
      | .ok b => .ok (s ++ h ++ b)

/-- An absolute URL split into its parts. -/
structure Url where
  scheme : List Char
  host : List Char
  rest : List Char
deriving DecidableEq, Repr

/-- Splits a string at the first `"://"`, if any. -/
def split_scheme : List Char → Option (List Char × List Char)
  | [] => none
  | ':' :: '/' :: '/' :: rest => some ([], rest)
  | c :: rest => (split_scheme rest).map fun p => (c :: p.1, p.2)

/-- Modelled from the spec: the external url crate's parser — per §4.2 a
string parses iff it is an absolute URL with a scheme and a host present
(relative paths and bare hostnames are rejected). -/
def url_parse (s : List Char) : Option Url :=
  match split_scheme s with
  | none => none
  | some (scheme, rest) =>
    let host := rest.takeWhile fun c =>
      !(c == '/') && !(c == ':') && !(c == '?') && !(c == '#')
    if scheme ≠ [] ∧ scheme.all Char.isAlpha ∧ host ≠ [] then
      some ⟨scheme, host, rest.drop host.length⟩
    else none

/-- `fn parse_url` (src/main.rs:35-38): `let _url: Url = s.parse()?;
Ok(s.into())` — the original string is returned when it parses as a URL. -/
def parse_url (s : List Char) : Except (List Char) (List Char) :=
  match url_parse s with
  | some _ => .ok s
  | none => .error s

/-- The JSON body map built by `post`: an insertion-ordered map with
replace-on-duplicate, modelling `std::collections::HashMap`. -/
abbrev BodyMap := List (List Char × List Char)

/-- `HashMap::insert`: replaces the value of an existing key, otherwise
appends the new entry. -/
def map_insert (m : BodyMap) (k v : List Char) : BodyMap :=
  match m with
  | [] => [(k, v)]
  | (k', v') :: rest =>
    if k' = k then (k, v) :: rest else (k', v') :: map_insert rest k v

/-- `HashMap::get`. -/
def map_get (m : BodyMap) (k : List Char) : Option (List Char) :=
  match m with
  | [] => none
  | (k', v) :: rest => if k' = k then some v else map_get rest k

/-- The body-building loop of `async fn post` (src/main.rs:77-85):
`for pair in args.body.iter() { body.insert(&pair.k, &pair.v); }`. -/
def build_body (pairs : List KvPair) : BodyMap :=
  pairs.foldl (fun m p => map_insert m p.k p.v) []

/-- The value of the last pair with key `k` in a pair sequence, if any. -/
def last_val (k : List Char) : List KvPair → Option (List Char)
  | [] => none
  | p :: ps =>
    match last_val k ps with
    | some v => some v
    | none => if p.k = k then some p.v else none

/-- An observable event of one invocation: an outbound request, or the start
of response rendering. -/
inductive Event
  | request
  | render
deriving DecidableEq, Repr

/-- `async fn get` (src/main.rs:72-75) together with clap's `value_parser`
validation of the url argument: validate the URL, send exactly one request
(its outcome supplied by the transport `send`), and on success render the
response.  The first component is the trace of events that occurred. -/
def run_get (url_arg : List Char)
    (send : List Char → Except TransportError Response) :
    List Event × Except RunError (List Char) :=
  match parse_url url_arg with
  | .error e => ([], .error (.cli e))
  | .ok url =>
    match send url with
    | .error e => ([.request], .error (.transport e))
    | .ok r => ([.request, .render], print_resp r)

/-- clap's application of `value_parser = parse_kv_pair` to each body token:
the first malformed token aborts argument validation. -/
def parse_body_args : List (List Char) → Except (List Char) (List KvPair)
  | [] => .ok []
  | t :: ts =>
    match parse_kv_pair t with
    | .error e => .error e
    | .ok p =>
      match parse_body_args ts with
      | .error e => .error e
      | .ok ps => .ok (p :: ps)

/-- `async fn post` (src/main.rs:77-85) together with clap's validation of
its arguments: validate the URL and every body token, fold the pairs into the
body map, send exactly one request, and on success render the response. -/
def run_post (url_arg : List Char) (body_args : List (List Char))
    (send : List Char → BodyMap → Except TransportError Response) :
    List Event × Except RunError (List Char) :=
  match parse_url url_arg with
  | .error e => ([], .error (.cli e))
  | .ok url =>
    match parse_body_args body_args with
    | .error e => ([], .error (.cli e))
    | .ok pairs =>
      match send url (build_body pairs) with
      | .error e => ([.request], .error (.transport e))
      | .ok r => ([.request, .render], print_resp r)

/-- Rendering exactly as claim C4 states it: the status line then a blank
line; each header on one line; a single blank line only after the whole
header block; then the body. -/
def render_claim_C4 (r : Response) (bodyOut : List Char) : List Char :=
  (r.version ++ ' ' :: r.status_code ++ ' ' :: r.status_text)
    ++ String.toList "\n\n"
    ++ (r.headers.map fun nv =>
          nv.1 ++ String.toList ": " ++ debug_quote nv.2 ++ ['\n']).flatten
    ++ ['\n'] ++ bodyOut

/-- Rendering as amended: the status line then a blank line; each header on
one line followed by its own blank line, and one further blank line after the
header block; then the body. -/
def render_amended_C4 (r : Response) (bodyOut : List Char) : List Char :=
  (r.version ++ ' ' :: r.status_code ++ ' ' :: r.status_text)
    ++ String.toList "\n\n"
    ++ (r.headers.map fun nv =>
          nv.1 ++ String.toList ": " ++ debug_quote nv.2
            ++ String.toList "\n\n").flatten
    ++ ['\n'] ++ bodyOut

/-- A concrete response with two headers, no Content-Type, and body `"hi"`,
used to evaluate the renderer. -/
def sampleResponse : Response :=
  ⟨String.toList "HTTP/1.1", String.toList "200", String.toList "OK",
   [(String.toList "x-a", String.toList "1"),
    (String.toList "x-b", String.toList "2")],
   .ok (String.toList "hi")⟩

theorem splitCh_ne_nil (sep : Char) (s : List Char) : splitCh sep s ≠ [] := by
  induction s with
  | nil => simp [splitCh]
  | cons c rest ih =>
    simp only [splitCh]
    split
    · simp
    · cases h : splitCh sep rest with
      | nil => simp
      | cons seg segs => simp

theorem splitCh_length (sep : Char) (s : List Char) :
    (splitCh sep s).length = s.count sep + 1 := by
  induction s with
  | nil => simp [splitCh]
  | cons c rest ih =>
    simp only [splitCh]
    split
    · subst_eqs
      simp [ih, List.count_cons]
    · cases h : splitCh sep rest with
      | nil => exact absurd h (splitCh_ne_nil sep rest)
      | cons seg segs =>
        rw [h] at ih
        simp_all [List.count_cons]

theorem splitCh_head (sep : Char) (s : List Char) :
    (splitCh sep s).head? = some (s.takeWhile (· ≠ sep)) := by
  induction s with
  | nil => simp [splitCh]
  | cons c rest ih =>
    by_cases hc : c = sep
    · subst hc
      simp [splitCh, List.takeWhile]
    · simp only [splitCh, if_neg hc]
      cases h : splitCh sep rest with
      | nil => exact absurd h (splitCh_ne_nil sep rest)
      | cons seg segs =>
        rw [h] at ih
        simp only [List.head?_cons, Option.some.injEq] at ih
        simp [List.takeWhile, hc, ih]

theorem splitCh_of_not_mem (sep : Char) (s : List Char) (h : sep ∉ s) :
    splitCh sep s = [s] := by
  induction s with
  | nil => simp [splitCh]
  | cons c rest ih =>
    simp only [List.mem_cons, not_or] at h
    simp only [splitCh, if_neg (Ne.symm h.1)]
    rw [ih h.2]

theorem splitCh_append (sep : Char) (k v : List Char) (hk : sep ∉ k) :
    splitCh sep (k ++ sep :: v) = k :: splitCh sep v := by
  induction k with
  | nil => simp [splitCh]
  | cons c rest ih =>
    simp only [List.mem_cons, not_or] at hk
    simp only [List.cons_append, splitCh, if_neg (Ne.symm hk.1), List.append_eq]
    rw [ih hk.2]

theorem kvPair_fromStr_of_no_sep (s : List Char) (h : '=' ∉ s) :
    KvPair.fromStr s = .error (kvPairErr s) := by
  unfold KvPair.fromStr
  rw [splitCh_of_not_mem '=' s h]

theorem kvPair_fromStr_of_mem (s : List Char) (h : '=' ∈ s) :
    ∃ p, KvPair.fromStr s = .ok p := by
  have hlen : 2 ≤ (splitCh '=' s).length := by
    rw [splitCh_length]
    have : 0 < s.count '=' := List.count_pos_iff.mpr h
    omega
  unfold KvPair.fromStr
  cases hs : splitCh '=' s with
  | nil => exact absurd hs (splitCh_ne_nil '=' s)
  | cons k rest =>
    cases rest with
    | nil => rw [hs] at hlen; simp at hlen
    | cons v rest' => exact ⟨⟨k, v⟩, rfl⟩

/-- Claim C5: the key-value parser fails (with the `Failed to parse` error)
exactly when the token contains no `=`; every token containing at least one
`=` parses successfully. -/
theorem C5_kv_parse_fails_iff_no_sep (s : List Char) :
    ('=' ∉ s → KvPair.fromStr s = .error (kvPairErr s)) ∧
    ('=' ∈ s → ∃ p, KvPair.fromStr s = .ok p) :=
  ⟨kvPair_fromStr_of_no_sep s, kvPair_fromStr_of_mem s⟩

/-- Witness for C5 at the concrete tokens `"abc"` (no `=`, fails) and
`"a=1"` (has `=`, succeeds). -/
theorem C5_kv_parse_fails_iff_no_sep_witness :
    KvPair.fromStr (String.toList "abc")
        = .error (kvPairErr (String.toList "abc")) ∧
    ∃ p, KvPair.fromStr (String.toList "a=1") = .ok p :=
  ⟨(C5_kv_parse_fails_iff_no_sep (String.toList "abc")).1 (by decide),
   (C5_kv_parse_fails_iff_no_sep (String.toList "a=1")).2 (by decide)⟩

/-- Counterexample to claim C1: parsing `"a=b=c"` yields value `"b"`, not the
whole remainder `"b=c"` — the second `next()` of `split('=')` returns only the
segment between the first and second `=`, truncating the value. -/
theorem C1_counterexample :
    KvPair.fromStr (String.toList "a=b=c")
        = .ok ⟨String.toList "a", String.toList "b"⟩ ∧
    String.toList "b" ≠ String.toList "b=c" := by
  constructor
  · rfl
  · decide

/-- Claim C1 as amended: for a non-empty key `k` containing no `=` and a value
`v` containing no `=`, the parser maps `k ++ "=" ++ v` to `KvPair k v`; when
`v` contains further `=` characters the value is truncated at the next `=`. -/
theorem C1_kv_parse_split (k v : List Char) (_hk0 : k ≠ []) (hk : '=' ∉ k)
    (hv : '=' ∉ v) : KvPair.fromStr (k ++ '=' :: v) = .ok ⟨k, v⟩ := by
  unfold KvPair.fromStr
  rw [splitCh_append '=' k v hk, splitCh_of_not_mem '=' v hv]

/-- Witness for the amended C1 at `k = "a"`, `v = "b"`. -/
theorem C1_kv_parse_split_witness :
    KvPair.fromStr (String.toList "a" ++ '=' :: String.toList "b")
        = .ok ⟨String.toList "a", String.toList "b"⟩ :=
  C1_kv_parse_split (String.toList "a") (String.toList "b")
    (by decide) (by decide) (by decide)

/-- Counterexample to claim C3: the parser succeeds on `"=v"`, returning a
pair whose key is empty — the non-empty-key invariant does not hold. -/
theorem C3_counterexample :
    KvPair.fromStr (String.toList "=v") = .ok ⟨[], String.toList "v"⟩ ∧
    (KvPair.mk [] (String.toList "v")).k = [] := by
  constructor
  · rfl
  · rfl

/-- Claim C3 as amended: the key of a successfully parsed pair is exactly the
token's prefix before the first `=` (hence contains no `=`), and this prefix
may be empty: tokens such as `"=v"` or `"="` are accepted with an empty key. -/
theorem C3_key_is_prefix_before_sep (s : List Char) (p : KvPair)
    (h : KvPair.fromStr s = .ok p) :
    p.k = s.takeWhile (· ≠ '=') ∧ '=' ∉ p.k := by
  unfold KvPair.fromStr at h
  cases hs : splitCh '=' s with
  | nil => exact absurd hs (splitCh_ne_nil '=' s)
  | cons k rest =>
    rw [hs] at h
    cases rest with
    | nil => exact absurd h (by simp)
    | cons v rest' =>
      simp only [Except.ok.injEq] at h
      have hhead := splitCh_head '=' s
      rw [hs] at hhead
      simp only [List.head?_cons, Option.some.injEq] at hhead
      have hk : p.k = k := by rw [← h]
      rw [hk, hhead]
      refine ⟨rfl, fun hmem => ?_⟩
      have := List.mem_takeWhile_imp hmem
      simp at this

/-- Witness for the amended C3 at the token `"=v"`: the returned key is the
(empty) prefix before the first `=`. -/
theorem C3_key_is_prefix_before_sep_witness :
    (KvPair.mk [] (String.toList "v")).k
        = (String.toList "=v").takeWhile (· ≠ '=') ∧
    '=' ∉ (KvPair.mk [] (String.toList "v")).k :=
  C3_key_is_prefix_before_sep (String.toList "=v")
    (KvPair.mk [] (String.toList "v")) rfl

/-- Counterexample to claim C2: with a Content-Type header present but not
parseable as a media type (here `"xxx"`), `get_content_type` panics on
`unwrap` instead of returning `none` for plain rendering. -/
theorem C2_counterexample :
    get_content_type [(CONTENT_TYPE, String.toList "xxx")]
        = .error .unwrapFailed ∧
    get_content_type [(CONTENT_TYPE, String.toList "xxx")]
        ≠ .ok none := by
  constructor
  · rfl
  · decide

/-- Claim C2 as amended: if the Content-Type header is absent the resolver
returns `none` (plain rendering); if it is present, a parseable value yields
its media type, but a value that is not visible-ASCII or not parseable as a
media type makes the resolver panic on `unwrap` — it never falls back to
`none` for a present header. -/
theorem C2_resolver_amended (hs : Headers) :
    (header_get hs CONTENT_TYPE = none → get_content_type hs = .ok none) ∧
    (∀ raw, header_get hs CONTENT_TYPE = some raw →
      (header_value_to_str raw = none →
        get_content_type hs = .error .unwrapFailed) ∧
      (∀ str, header_value_to_str raw = some str →
        (mime_parse str = none →
          get_content_type hs = .error .unwrapFailed) ∧
        (∀ m, mime_parse str = some m →
          get_content_type hs = .ok (some m))) ∧
      get_content_type hs ≠ .ok none) := by
  refine ⟨fun h0 => ?_, fun raw hraw => ?_⟩
  · unfold get_content_type
    rw [h0]
  · have hg : get_content_type hs =
        (match header_value_to_str raw with
         | none => .error .unwrapFailed
         | some str =>
           match mime_parse str with
           | none => .error .unwrapFailed
           | some m => .ok (some m)) := by
      unfold get_content_type
      rw [hraw]
    refine ⟨fun h1 => ?_, fun str hstr => ⟨fun h2 => ?_, fun m hm => ?_⟩, ?_⟩
    · rw [hg, h1]
    · rw [hg, hstr]
      simp [h2]
    · rw [hg, hstr]
      simp [hm]
    · rw [hg]
      cases h1 : header_value_to_str raw with
      | none => simp
      | some str =>
        cases h2 : mime_parse str with
        | none => simp [h1, h2]
        | some m => simp [h1, h2]

/-- Witness for the amended C2: at the concrete header list
`[("content-type", "xxx")]` the resolver panics. -/
theorem C2_resolver_amended_witness :
    get_content_type [(CONTENT_TYPE, String.toList "xxx")]
        = .error .unwrapFailed :=
  (((C2_resolver_amended [(CONTENT_TYPE, String.toList "xxx")]).2
      (String.toList "xxx") rfl).2.1 (String.toList "xxx") rfl).1 rfl

/-- Claim C8: body rendering dispatches on the resolved media type —
`application/json` goes to the highlighted JSON path, `text/html` to the
highlighted HTML path, and any other or absent media type prints the body
verbatim (followed by `println!`'s newline) with no highlighting. -/
theorem C8_body_dispatch (body : List Char) :
    print_body (some APPLICATION_JSON) body
        = print_synctect body (String.toList "json") ∧
    print_body (some TEXT_HTML) body
        = print_synctect body (String.toList "html") ∧
    (∀ m : Mime, m ≠ APPLICATION_JSON → m ≠ TEXT_HTML →
      print_body (some m) body = .ok (body ++ ['\n'])) ∧
    print_body none body = .ok (body ++ ['\n']) := by
  refine ⟨?_, ?_, fun m h1 h2 => ?_, rfl⟩
  · simp [print_body]
  · show (if TEXT_HTML = APPLICATION_JSON then print_synctect body (String.toList "json")
          else if TEXT_HTML = TEXT_HTML then print_synctect body (String.toList "html")
          else .ok (body ++ ['\n']))
        = print_synctect body (String.toList "html")
    rw [if_neg (by decide), if_pos rfl]
  · simp [print_body, h1, h2]

/-- Witness for C8 at body `"x"` and the media type `text/plain`, which takes
the verbatim path. -/
theorem C8_body_dispatch_witness :
    print_body (some ⟨String.toList "text", String.toList "plain", []⟩)
        (String.toList "x")
      = .ok (String.toList "x" ++ ['\n']) :=
  (C8_body_dispatch (String.toList "x")).2.2.1
    ⟨String.toList "text", String.toList "plain", []⟩ (by decide) (by decide)

/-- Claim C10: the syntax lookup `unwrap` in the highlighting routine is
unreachable — `print_body` only ever invokes `print_synctect` with extension
`"json"` or `"html"`, both present in the default grammar set, so body
rendering never panics on the lookup. -/
theorem C10_highlight_lookup_safe :
    (∀ (m : Option Mime) (body : List Char), ∃ out, print_body m body = .ok out) ∧
    String.toList "json" ∈ default_grammar_extensions ∧
    String.toList "html" ∈ default_grammar_extensions := by
  refine ⟨fun m body => ?_, by decide, by decide⟩
  match m with
  | none => exact ⟨body ++ ['\n'], rfl⟩
  | some v =>
    by_cases h1 : v = APPLICATION_JSON
    · subst h1
      exact ⟨_, rfl⟩
    · by_cases h2 : v = TEXT_HTML
      · subst h2
        exact ⟨_, rfl⟩
      · exact ⟨body ++ ['\n'], by simp [print_body, h1, h2]⟩

/-- Counterexample to claim C4: on a response with two headers the renderer
emits a blank line after every header line (the `\n` inside
`println!("{}: {:?}\n", ..)` plus `println!`'s own newline), not a single
blank line only after the whole header block. -/
theorem C4_counterexample :
    print_resp sampleResponse
        = .ok (render_amended_C4 sampleResponse (String.toList "hi" ++ ['\n'])) ∧
    render_amended_C4 sampleResponse (String.toList "hi" ++ ['\n'])
        ≠ render_claim_C4 sampleResponse (String.toList "hi" ++ ['\n']) := by
  constructor
  · rfl
  · decide

/-- Claim C4 as amended: the renderer emits, in order, the status line
`"<protocolVersion> <statusCode> <statusText>"` followed by a blank line;
then the headers in received order, each on one line followed by its own
blank line, with one further blank line after the header block; then the
body. -/
theorem C4_render_order (r : Response) (m : Option Mime)
    (body bodyOut : List Char)
    (hct : get_content_type r.headers = .ok m)
    (htext : r.text = .ok body)
    (hbody : print_body m body = .ok bodyOut) :
    print_resp r = .ok (render_amended_C4 r bodyOut) := by
  simp only [print_resp, hct, htext, hbody]
  unfold render_amended_C4 print_status print_headers status_display
  simp [List.append_assoc]

/-- Witness for the amended C4 at the concrete `sampleResponse`. -/
theorem C4_render_order_witness :
    print_resp sampleResponse
        = .ok (render_amended_C4 sampleResponse (String.toList "hi" ++ ['\n'])) :=
  C4_render_order sampleResponse none (String.toList "hi")
    (String.toList "hi" ++ ['\n']) rfl rfl rfl

/-- Claim C6: URL validation succeeds iff the string parses as an absolute
URL with a scheme and a host; in particular `"abs"` is rejected while
`"http://abc.xyz"` and `"https://httpbin.org/post"` are accepted, and a valid
string is returned unchanged. -/
theorem C6_url_validation (s : List Char) :
    ((∃ u, url_parse s = some u) → parse_url s = .ok s) ∧
    (url_parse s = none → parse_url s = .error s) ∧
    parse_url (String.toList "abs") = .error (String.toList "abs") ∧
    parse_url (String.toList "http://abc.xyz")
        = .ok (String.toList "http://abc.xyz") ∧
    parse_url (String.toList "https://httpbin.org/post")
        = .ok (String.toList "https://httpbin.org/post") := by
  refine ⟨fun ⟨u, hu⟩ => ?_, fun h => ?_, rfl, rfl, rfl⟩
  · unfold parse_url
    rw [hu]
  · unfold parse_url
    rw [h]

/-- Witness for C6 at `"http://abc.xyz"`, discharging the existence of its
parsed form. -/
theorem C6_url_validation_witness :
    parse_url (String.toList "http://abc.xyz")
        = .ok (String.toList "http://abc.xyz") :=
  (C6_url_validation (String.toList "http://abc.xyz")).1
    ⟨⟨String.toList "http", String.toList "abc.xyz", []⟩, rfl⟩

theorem map_get_insert (m : BodyMap) (k k' v : List Char) :
    map_get (map_insert m k' v) k = if k' = k then some v else map_get m k := by
  induction m with
  | nil => simp [map_insert, map_get]
  | cons e rest ih =>
    obtain ⟨k₂, v₂⟩ := e
    by_cases h : k₂ = k'
    · subst h
      by_cases hk : k₂ = k
      · subst hk
        simp [map_insert, map_get]
      · simp [map_insert, map_get, hk]
    · by_cases hk : k₂ = k
      · subst hk
        have h' : k' ≠ k₂ := fun he => h he.symm
        simp [map_insert, map_get, h, h']
      · simp [map_insert, map_get, h, hk, ih]

theorem build_body_foldl (pairs : List KvPair) (m : BodyMap) (k : List Char) :
    map_get (pairs.foldl (fun acc p => map_insert acc p.k p.v) m) k
      = match last_val k pairs with
        | some v => some v
        | none => map_get m k := by
  induction pairs generalizing m with
  | nil => simp [last_val]
  | cons p ps ih =>
    simp only [List.foldl_cons, last_val]
    rw [ih]
    cases h : last_val k ps with
    | some v => simp [h]
    | none =>
      simp only [h, map_get_insert]
      by_cases hpk : p.k = k <;> simp [hpk]

/-- Claim C7: folding POST key-value pairs into the JSON body map is
last-write-wins — the body maps each key to the value of its last occurrence
in the sequence; in particular `[("a","1"),("a","2")]` builds `{"a": "2"}`. -/
theorem C7_post_body_last_write_wins :
    (∀ (pairs : List KvPair) (k : List Char),
      map_get (build_body pairs) k = last_val k pairs) ∧
    build_body
        [⟨String.toList "a", String.toList "1"⟩,
         ⟨String.toList "a", String.toList "2"⟩]
      = [(String.toList "a", String.toList "2")] := by
  refine ⟨fun pairs k => ?_, rfl⟩
  unfold build_body
  rw [build_body_foldl]
  cases last_val k pairs <;> simp [map_get]

/-- Claim C9: a failure at argument validation or at request execution aborts
the pipeline immediately — on a validation failure no request is sent and
nothing is rendered; on a transport failure the sole request appears in the
trace but rendering does not; rendering occurs only after a successful
execution; and at most one request is sent, exactly one whenever validation
succeeds.  Both the `get` and the `post` pipeline are covered. -/
theorem C9_pipeline_abort (url : List Char)
    (send : List Char → Except TransportError Response)
    (body_args : List (List Char))
    (send2 : List Char → BodyMap → Except TransportError Response) :
    ((∀ e, parse_url url = .error e → run_get url send = ([], .error (.cli e))) ∧
     (∀ u e, parse_url url = .ok u → send u = .error e →
       run_get url send = ([.request], .error (.transport e))) ∧
     (run_get url send).1.count .request ≤ 1 ∧
     (∀ u, parse_url url = .ok u → (run_get url send).1.count .request = 1) ∧
     (.render ∈ (run_get url send).1 →
       ∃ u r, parse_url url = .ok u ∧ send u = .ok r)) ∧
    ((∀ e, parse_url url = .error e →
       run_post url body_args send2 = ([], .error (.cli e))) ∧
     (∀ u pairs e, parse_url url = .ok u →
       parse_body_args body_args = .ok pairs →
       send2 u (build_body pairs) = .error e →
       run_post url body_args send2 = ([.request], .error (.transport e))) ∧
     (run_post url body_args send2).1.count .request ≤ 1 ∧
     (∀ u pairs, parse_url url = .ok u → parse_body_args body_args = .ok pairs →
       (run_post url body_args send2).1.count .request = 1) ∧
     (.render ∈ (run_post url body_args send2).1 →
       ∃ u pairs r, parse_url url = .ok u ∧
         parse_body_args body_args = .ok pairs ∧
         send2 u (build_body pairs) = .ok r)) := by
  constructor
  · refine ⟨fun e he => ?_, fun u e hu hsend => ?_, ?_, fun u hu => ?_, ?_⟩
    · simp only [run_get, he]
    · simp only [run_get, hu, hsend]
    · cases hp : parse_url url with
      | error e => simp [run_get, hp]
      | ok u =>
        cases hs : send u with
        | error e => simp [run_get, hp, hs]
        | ok r => simp [run_get, hp, hs]
    · cases hs : send u with
      | error e => simp [run_get, hu, hs]
      | ok r => simp [run_get, hu, hs]
    · cases hp : parse_url url with
      | error e => simp [run_get, hp]
      | ok u =>
        cases hs : send u with
        | error e => simp [run_get, hp, hs]
        | ok r => exact fun _ => ⟨u, r, rfl, hs⟩
  · refine ⟨fun e he => ?_, fun u pairs e hu hpairs hsend => ?_, ?_,
      fun u pairs hu hpairs => ?_, ?_⟩
    · simp only [run_post, he]
    · simp only [run_post, hu, hpairs, hsend]
    · cases hp : parse_url url with
      | error e => simp [run_post, hp]
      | ok u =>
        cases hb : parse_body_args body_args with
        | error e => simp [run_post, hp, hb]
        | ok pairs =>
          cases hs : send2 u (build_body pairs) with
          | error e => simp [run_post, hp, hb, hs]
          | ok r => simp [run_post, hp, hb, hs]
    · cases hs : send2 u (build_body pairs) with
      | error e => simp [run_post, hu, hpairs, hs]
      | ok r => simp [run_post, hu, hpairs, hs]
    · cases hp : parse_url url with
      | error e => simp [run_post, hp]
      | ok u =>
        cases hb : parse_body_args body_args with
        | error e => simp [run_post, hp, hb]
        | ok pairs =>
          cases hs : send2 u (build_body pairs) with
          | error e => simp [run_post, hp, hb, hs]
          | ok r => exact fun _ => ⟨u, pairs, r, rfl, rfl, hs⟩

/-- Witness for C9: with the invalid URL `"abs"` nothing is sent or rendered,
and with the valid URL `"http://abc.xyz"` and a failing transport the sole
request appears in the trace and nothing is rendered. -/
theorem C9_pipeline_abort_witness :
    run_get (String.toList "abs") (fun _ => .error .failure)
        = ([], .error (.cli (String.toList "abs"))) ∧
    run_get (String.toList "http://abc.xyz") (fun _ => .error .failure)
        = ([.request], .error (.transport .failure)) :=
  ⟨((C9_pipeline_abort (String.toList "abs") (fun _ => .error .failure) []
      (fun _ _ => .error .failure)).1.1 (String.toList "abs") rfl),
   ((C9_pipeline_abort (String.toList "http://abc.xyz")
      (fun _ => .error .failure) [] (fun _ _ => .error .failure)).1.2.1
      (String.toList "http://abc.xyz") TransportError.failure rfl rfl)⟩

end Httpie
